import Mathlib

/-!
Verification development for the patent-lookup tool in `src/streamlit_app.py`.

The Python source is shallowly embedded: an HTML document is a list of nodes
(the attributes that the extraction code queries), `parse_core` is translated
statement by statement, and the fetch pipeline of `fetch_one`/`main` is
modelled with an explicit outcome oracle for the network. All machinery works
on `List Char` (Python `str` methods) wrapped into Lean `String`s.
-/

/-! ## Python string primitives -/

/-- Characters treated as whitespace by Python's `str.strip` and `\s`
(ASCII fragment: space, tab, newline, carriage return, vertical tab, form feed). -/
def pyWhitespace (c : Char) : Bool :=
  c.toNat = 32 || c.toNat = 9 || c.toNat = 10 || c.toNat = 13 || c.toNat = 11 || c.toNat = 12

/-- Python `str.strip` on a character list: drop leading and trailing whitespace. -/
def stripData (s : List Char) : List Char :=
  ((s.dropWhile pyWhitespace).reverse.dropWhile pyWhitespace).reverse

/-- Python `str.strip` on strings. -/
def pystrip (s : String) : String := ⟨stripData s.data⟩

/-- Python `str.lower` (ASCII view, which covers the tokens the source compares). -/
def strLower (s : String) : String := ⟨s.data.map Char.toLower⟩

/-- Does `s` start with `p`? (used to define substring containment). -/
def startsWithList : List Char → List Char → Bool
  | [], _ => true
  | _ :: _, [] => false
  | a :: as, b :: bs => a == b && startsWithList as bs

/-- Python's `sub in s` substring test on character lists. -/
def isSub (sub : List Char) : List Char → Bool
  | [] => startsWithList sub []
  | c :: rest => startsWithList sub (c :: rest) || isSub sub rest

/-- Python truthiness of an `Optional[str]`: `None` and `""` are falsy. -/
def truthy : Option String → Bool
  | none => false
  | some s => decide (s ≠ "")

/-- Python `x or d` for `x : Optional[str]`: `d` when `x` is `None` or empty. -/
def pyOr (o : Option String) (d : String) : String :=
  match o with
  | none => d
  | some s => if s = "" then d else s

/-! ## The document model

`parse_core` queries a BeautifulSoup tree only through `soup.find` with a tag
name and/or an `itemprop` attribute, and then reads the element's `.text`.
A document is therefore modelled as the list of its elements in document
order; `find` is the first list element matching the query. The
`datetime`, `eventTitle` and `eventTime` fields carry the machine-readable
attribute of `time` elements and the nested title/time data of an "events"
element: the Python source never reads them, but the specification's claimed
fallback tiers do, so they are part of the model. -/

structure Node where
  tag : String
  itemprop : Option String
  text : String
  datetime : Option String := none
  eventTitle : Option String := none
  eventTime : Option String := none
deriving DecidableEq, Repr

/-- A document: its elements in document order. -/
abbrev Html := List Node

/-- Model of `soup.find(tagName, itemprop=p)`. -/
def findTagProp (doc : Html) (t p : String) : Option Node :=
  doc.find? (fun n => n.tag == t && n.itemprop == some p)

/-- Model of `soup.find(attrs={"itemprop": p})`. -/
def findProp (doc : Html) (p : String) : Option Node :=
  doc.find? (fun n => n.itemprop == some p)

/-- Model of `soup.find(tagName)`. -/
def findTag (doc : Html) (t : String) : Option Node :=
  doc.find? (fun n => n.tag == t)

/-! ## The extraction routine `GooglePatentsClient.parse_core` -/

/-- Splitting of the title text: `re.split(r" - |\n", s)`, matching either a
literal " - " or a newline, leftmost first. -/
def titleSplit : List Char → List (List Char)
  | ' ' :: '-' :: ' ' :: rest => [] :: titleSplit rest
  | '\n' :: rest => [] :: titleSplit rest
  | c :: rest =>
    match titleSplit rest with
    | t :: ts => (c :: t) :: ts
    | [] => [[c]]
  | [] => [[]]

/-- Lines 38-45 of the source: `patent_no` and `title` from the `<title>` text,
still as Python `Optional[str]` values. -/
def titleParts (doc : Html) : Option (String × String) :=
  match findTag doc ("title") with
  | some tt =>
    if tt.text = "" then none
    else
      match titleSplit tt.text.data with
      | p0 :: p1 :: _ => some (⟨stripData p0⟩, ⟨stripData p1⟩)
      | _ => none
  | none => none

/-- Lines 47-51: the `inventor` local (`None`, or the stripped text of the
first `<dd itemprop="inventor">`). -/
def inventorOpt (doc : Html) : Option String :=
  match findTagProp doc ("dd") ("inventor") with
  | some tg => if tg.text = "" then none else some (pystrip tg.text)
  | none => none

/-- Lines 53-61: the `assignee` local, including the inventor de-duplication
branch (`if inventor and assignee_text == inventor: assignee = None`). -/
def assigneeOpt (doc : Html) : Option String :=
  match findTagProp doc ("span") ("assigneeSearch") with
  | some tg =>
    if tg.text = "" then none
    else
      match inventorOpt doc with
      | some inv => if inv ≠ "" ∧ pystrip tg.text = inv then none else some (pystrip tg.text)
      | none => some (pystrip tg.text)
  | none => none

/-- Lines 63-67: the `priority_date` local. -/
def priorityOpt (doc : Html) : Option String :=
  match findProp doc ("priorityDate") with
  | some tg => if tg.text = "" then none else some (pystrip tg.text)
  | none => none

/-- Lines 73-77: the `status_val` local, with the `"Expired"` substring
collapsed to the literal `"Expired"`. -/
def statusValOpt (doc : Html) : Option String :=
  match findTagProp doc ("span") ("status") with
  | some tg =>
    if tg.text = "" then none
    else some (if isSub ("Expired").data (pystrip tg.text).data then "Expired" else pystrip tg.text)
  | none => none

/-- Lines 79-81: the `exp_date` local, the stripped text of the first
`<time itemprop="expiration">`. -/
def expDateOpt (doc : Html) : Option String :=
  match findTagProp doc ("time") ("expiration") with
  | some tg => if tg.text = "" then none else some (pystrip tg.text)
  | none => none

/-- Lines 83-89: composition of the status string. -/
def statusStr (doc : Html) : String :=
  match statusValOpt doc with
  | some sv =>
    if sv ≠ "" then
      if sv = "Active" ∧ truthy (expDateOpt doc) then
        sv ++ " (Exp. " ++ (expDateOpt doc).getD ("") ++ ")"
      else sv
    else "No status or exp date"
  | none => "No status or exp date"

/-- The record returned by `parse_core` (lines 91-99 of the source). -/
structure PatentRecord where
  patent_no : String
  title : String
  inventor : String
  assignee : String
  status : String
  priority_date : String
  exp_date : String
deriving DecidableEq, Repr

/-- Model of `GooglePatentsClient.parse_core`: the whole extraction routine. -/
def parse_core (doc : Html) : PatentRecord :=
  { patent_no := pyOr ((titleParts doc).map (fun pr => pr.1)) ""
    title := pyOr ((titleParts doc).map (fun pr => pr.2)) ""
    inventor :=
      if truthy (inventorOpt doc) then "Inventor: " ++ (inventorOpt doc).getD ("")
      else "Inventor: None"
    assignee :=
      if truthy (assigneeOpt doc) then "Assignee: " ++ (assigneeOpt doc).getD ("")
      else "Assignee: None"
    status := statusStr doc
    priority_date := pyOr (priorityOpt doc) "DATE MISSING"
    exp_date := pyOr (expDateOpt doc) "DATE MISSING" }

/-! ## The fetch pipeline (`url_from_patno`, `get_html`, `fetch_one`, the loop in `main`)

The network is an oracle assigning each request its outcome: either an HTTP
response (status code plus parsed body) or a transport-level exception
(`requests.RequestException`, carrying its message). `requests.get` raises in
the latter case, so `get_html` and `fetch_one` propagate the exception; this
is modelled by `Except`, with `Except.error` standing for an escaping
exception. -/

/-- Outcome of one HTTP request. -/
inductive FetchOutcome where
  | response (code : Nat) (doc : Html)
  | transportError (msg : String)
deriving DecidableEq, Repr

/-- The dict returned by `fetch_one`: bookkeeping keys plus, on success, the
parsed record (on the error path the data keys are absent). -/
structure FetchData where
  pat_input : String
  url : String
  error : String
  record : Option PatentRecord
deriving DecidableEq, Repr

/-- Model of `GooglePatentsClient.url_from_patno`. -/
def url_from_patno (no : String) : String :=
  "https://patents.google.com/patent/" ++ no ++ "/en?oq=" ++ no

/-- Model of `fetch_one` (lines 102-112): a non-200 status is returned as an error row,
a transport exception propagates (`Except.error`). -/
def fetch_one (pat : String) (outcome : FetchOutcome) : Except String FetchData :=
  match outcome with
  | .transportError msg => .error msg
  | .response code doc =>
    if code ≠ 200 then .ok ⟨pat, url_from_patno pat, "HTTP " ++ toString code, none⟩
    else .ok ⟨pat, url_from_patno pat, "", some (parse_core doc)⟩

/-- The seven record field names (`DEFAULT_FIELDS` in the source). -/
def DEFAULT_FIELDS : List String :=
  ["patent_no", "title", "inventor", "assignee", "status", "priority_date", "exp_date"]

/-- Field projection of a record by name (`data.get(f, "")` on the seven keys). -/
def getField (r : PatentRecord) (f : String) : String :=
  if f = "patent_no" then r.patent_no
  else if f = "title" then r.title
  else if f = "inventor" then r.inventor
  else if f = "assignee" then r.assignee
  else if f = "status" then r.status
  else if f = "priority_date" then r.priority_date
  else if f = "exp_date" then r.exp_date
  else ""

/-- One iteration of the loop in `main` (lines 173-191): call `fetch_one`,
catch a propagated transport exception as an error row, and build the output
row in dict insertion order (`pat_input`, optional `url`, `error`, then the
selected fields, empty when the fetch failed). -/
def processOne (selected : List String) (includeUrl : Bool) (pat : String)
    (outcome : FetchOutcome) : List (String × String) :=
  let data : FetchData :=
    match fetch_one pat outcome with
    | .ok d => d
    | .error e => ⟨pat, url_from_patno pat, e, none⟩
  let fieldCells := selected.map (fun f =>
    (f, match data.record with
        | some r => getField r f
        | none => ""))
  if includeUrl then
    ("pat_input", data.pat_input) :: ("url", data.url) :: ("error", data.error) :: fieldCells
  else
    ("pat_input", data.pat_input) :: ("error", data.error) :: fieldCells

/-- The whole loop of `main`: one row per identifier, in order; no identifier
aborts the run. -/
def runAll (selected : List String) (includeUrl : Bool) (pats : List String)
    (oracle : String → FetchOutcome) : List (List (String × String)) :=
  pats.map (fun p => processOne selected includeUrl p (oracle p))

/-- Lookup of a key in a row (Python dict access; keys in a row are distinct). -/
def rowGet (row : List (String × String)) (k : String) : Option String :=
  (row.find? (fun e => e.1 == k)).map (fun e => e.2)

/-! ## The identifier-list parser `parse_patent_list` -/

/-- Is `c` matched by the delimiter class `[\s,]` of `re.split`? -/
def isSepChar (c : Char) : Bool := pyWhitespace c || c == ','

/-- Prepend a character to the first token of a token list. -/
def consHead (c : Char) : List (List Char) → List (List Char)
  | [] => [[c]]
  | t :: ts => (c :: t) :: ts

/-- Engine of `re.split(r"[\s,]+", s)`: the flag records whether the previous
character was part of a delimiter run (so the run produces one boundary). -/
def splitRunsAux : Bool → List Char → List (List Char)
  | _, [] => [[]]
  | b, c :: rest =>
    if isSepChar c then
      if b then splitRunsAux true rest else [] :: splitRunsAux true rest
    else consHead c (splitRunsAux false rest)

/-- Model of `re.split` on the delimiter class, over a whole text. -/
def splitRuns (s : List Char) : List (List Char) := splitRunsAux false s

/-- The header-word stoplist of `parse_patent_list` (line 122). -/
def stopWords : List String := ["patent", "number", "patentnumber", "patent_no", "patent-no"]

/-- Order-preserving de-duplication with a seen set (lines 126-131). -/
def dedupeFirst : List String → List String → List String
  | _, [] => []
  | seen, p :: rest =>
    if p ∈ seen then dedupeFirst seen rest else p :: dedupeFirst (p :: seen) rest

/-- Model of `parse_patent_list` (lines 114-132): strip the input, split on runs of
whitespace/commas, strip each token, drop empties and stoplisted words,
de-duplicate preserving first occurrence. -/
def parse_patent_list (raw : String) : List String :=
  let toks := splitRuns (stripData raw.data)
  let pats := toks.filterMap (fun t =>
    if stripData t = [] then none
    else if strLower ⟨stripData t⟩ ∈ stopWords then none
    else some (⟨stripData t⟩ : String))
  dedupeFirst [] pats

/-! ## The CSV/TSV export of `main` (lines 200-212) -/

/-- Python `sep.join`. -/
def interChar (d : Char) : List (List Char) → List Char
  | [] => []
  | [x] => x
  | x :: y :: ys => x ++ d :: interChar d (y :: ys)

/-- Python quote doubling, as in the replace call on line 209. -/
def doubleQuotes : List Char → List Char
  | [] => []
  | c :: r => if c = '"' then '"' :: '"' :: doubleQuotes r else c :: doubleQuotes r

/-- One cell of the export (lines 207-209): quoted, with inner quotes doubled,
exactly when the value contains the separator, a newline or a quote. -/
def escapeCell (sep : Char) (val : List Char) : List Char :=
  if val.any (fun c => c == sep || c == '\n' || c == '"') then
    '"' :: doubleQuotes val ++ ['"']
  else val

/-- One data line of the export: escaped cells joined by the separator. -/
def serializeRow (sep : Char) (cells : List (List Char)) : List Char :=
  interChar sep (cells.map (escapeCell sep))

/-- The full export text: the unescaped header line, then one escaped line per
row, joined by newlines (lines 200-212). -/
def exportText (sep : Char) (headers : List (List Char)) (rows : List (List (List Char))) :
    List Char :=
  interChar '\n' (interChar sep headers :: rows.map (serializeRow sep))

/-! ### A standard delimited-text reader

Standard CSV reading: split the text into records at unquoted newlines, split
each record into cells at unquoted separators (a doubled quote toggles the
quote state twice, so it never ends a quoted region), then strip the quoting
from each cell. -/

/-- Split at top-level (quote-state-even) occurrences of the delimiter. -/
def splitTopAux (d : Char) : Bool → List Char → List (List Char)
  | _, [] => [[]]
  | inQ, c :: rest =>
    if c = '"' then consHead c (splitTopAux d (!inQ) rest)
    else if inQ = false ∧ c = d then [] :: splitTopAux d false rest
    else consHead c (splitTopAux d inQ rest)

/-- Split a text at unquoted occurrences of `d`. -/
def splitTop (d : Char) (s : List Char) : List (List Char) := splitTopAux d false s

/-- Undo quote doubling inside a quoted cell: a doubled quote yields one
quote, a single quote closes the cell. -/
def undoubleInner : List Char → List Char
  | [] => []
  | c :: r =>
    if c = '"' then
      match r with
      | r0 :: r1 => if r0 = '"' then '"' :: undoubleInner r1 else []
      | [] => []
    else c :: undoubleInner r

/-- Standard unquoting of one cell. -/
def unescapeCell (v : List Char) : List Char :=
  match v with
  | [] => []
  | c :: r => if c = '"' then undoubleInner r else v

/-- Standard delimited-text parsing of a whole document. -/
def parseTable (sep : Char) (s : List Char) : List (List (List Char)) :=
  (splitTop '\n' s).map (fun line => (splitTop sep line).map unescapeCell)

/-! ## Claimed field resolutions, following the specification's words

These definitions restate, over the same document model, the per-field
procedures asserted by the specification; the theorems below compare them
with the translation of the source. Tiers that reference nested event markup
use the `eventTitle`/`eventTime` attributes of the model. -/

/-- First alternative that produced a non-empty result. -/
def firstNonempty : List (Option String) → Option String
  | [] => none
  | o :: rest =>
    match o with
    | some s => if s = "" then firstNonempty rest else some s
    | none => firstNonempty rest

/-- Case-insensitive substring containment. -/
def lowerContains (needle hay : String) : Bool :=
  isSub (strLower needle).data (strLower hay).data

/-- All "events" description-detail elements of a document. -/
def eventNodes (doc : Html) : List Node :=
  doc.filter (fun n => n.tag == "dd" && n.itemprop == some ("events"))

/-- Claimed event-list scan: first event whose nested title contains the
phrase (case-insensitively), taking its nested time element's datetime. -/
def eventScan (doc : Html) (phrase : String) : Option String :=
  ((eventNodes doc).find? (fun n =>
    match n.eventTitle with
    | some t => lowerContains phrase t
    | none => false)).bind (fun n => n.eventTime)

/-- Claim C1: the asserted four-tier resolution of `exp_date` (expiration
datetime attribute, then the "adjusted expiration" event, then the
"anticipated expiration" event, then any datetime-bearing event). -/
def expDateClaimed (doc : Html) : String :=
  (firstNonempty
    [(findTagProp doc ("time") ("expiration")).bind (fun n => n.datetime),
     eventScan doc ("adjusted expiration"),
     eventScan doc ("anticipated expiration"),
     ((eventNodes doc).find? (fun n => n.eventTime.isSome)).bind (fun n => n.eventTime)]).getD
    ("DATE MISSING")

/-- What the source actually computes for `exp_date`: the stripped text of the
expiration time element when non-blank, the sentinel otherwise, with no
event-list fallback. -/
def expDateAmendedSpec (doc : Html) : String :=
  match findTagProp doc ("time") ("expiration") with
  | some n => if pystrip n.text = "" then "DATE MISSING" else pystrip n.text
  | none => "DATE MISSING"

/-- Claim C5: the asserted two-path resolution of `priority_date`. -/
def priorityDateClaimed (doc : Html) : String :=
  (firstNonempty
    [(findProp doc ("priorityDate")).map (fun n => pystrip n.text),
     (findTagProp doc ("time") ("priorArtDate")).bind (fun n => n.datetime)]).getD
    ("DATE MISSING")

/-- What the source actually computes for `priority_date`: only the
`priorityDate` element's stripped text, no `priorArtDate` fallback. -/
def priorityDateAmendedSpec (doc : Html) : String :=
  match findProp doc ("priorityDate") with
  | some n => if pystrip n.text = "" then "DATE MISSING" else pystrip n.text
  | none => "DATE MISSING"

/-- Claims C3/C4: the inventor value as the specification resolves it (trimmed
text when present and non-blank, bare sentinel otherwise). -/
def inventorClaimed (doc : Html) : String :=
  match findTagProp doc ("dd") ("inventor") with
  | some n => if pystrip n.text = "" then "None" else pystrip n.text
  | none => "None"

/-- What the source actually stores in the record: the same resolution, but
prefixed with "Inventor: ". -/
def inventorAmendedSpec (doc : Html) : String :=
  match findTagProp doc ("dd") ("inventor") with
  | some n =>
    if pystrip n.text = "" then "Inventor: None" else "Inventor: " ++ pystrip n.text
  | none => "Inventor: None"

/-- Claim C2: the asserted composition of the status field (absent element →
fixed literal; text containing "Expired" → "Expired"; text "Active" with an
expiration found → composed; otherwise the trimmed text unchanged). -/
def statusClaimed (doc : Html) : String :=
  match findTagProp doc ("span") ("status") with
  | none => "No status or exp date"
  | some n =>
    if isSub ("Expired").data (pystrip n.text).data then "Expired"
    else if pystrip n.text = "Active" ∧ truthy (expDateOpt doc) then
      "Active (Exp. " ++ (expDateOpt doc).getD ("") ++ ")"
    else pystrip n.text

/-- What the source actually computes: the same composition, except that a
status element whose text is empty or blank also yields the fixed literal. -/
def statusAmendedSpec (doc : Html) : String :=
  match findTagProp doc ("span") ("status") with
  | none => "No status or exp date"
  | some n =>
    if pystrip n.text = "" then "No status or exp date"
    else if isSub ("Expired").data (pystrip n.text).data then "Expired"
    else if pystrip n.text = "Active" ∧ truthy (expDateOpt doc) then
      "Active (Exp. " ++ (expDateOpt doc).getD ("") ++ ")"
    else pystrip n.text

/-- Claim C6: the asserted derivation of `patent_no` and `title` from the
document title text. -/
def titleClaimed (doc : Html) : String × String :=
  match findTag doc ("title") with
  | some tt =>
    match titleSplit tt.text.data with
    | p0 :: p1 :: _ => (⟨stripData p0⟩, ⟨stripData p1⟩)
    | _ => ("", "")
  | none => ("", "")

/-- Claim C9: the asserted identifier-list behaviour: split the (trimmed)
block on whitespace/comma runs, drop empty artifacts and stoplisted words,
de-duplicate preserving first occurrence. -/
def identifierListClaimed (raw : String) : List String :=
  let toks := (splitRuns (stripData raw.data)).filter (fun t => !decide (t = []))
  let keep := toks.filter (fun t => !decide (strLower ⟨t⟩ ∈ stopWords))
  dedupeFirst [] (keep.map (fun t => (⟨t⟩ : String)))

/-! ## Concrete documents used as counterexamples -/

/-- A document whose expiration time element has both a datetime attribute and
a rendered text. -/
def docExpAttr : Html :=
  [{ tag := "time", itemprop := some ("expiration"), text := "Dec 31, 2030",
     datetime := some ("2030-12-31") }]

/-- A document with no expiration element, but with an "adjusted expiration"
event carrying a datetime. -/
def docExpEvent : Html :=
  [{ tag := "dd", itemprop := some ("events"), text := "",
     eventTitle := some ("Adjusted expiration"), eventTime := some ("2031-05-01") }]

/-- A document whose status element contains only whitespace. -/
def docBlankStatus : Html :=
  [{ tag := "span", itemprop := some ("status"), text := " " }]

/-- A document where the assignee text equals the inventor text. -/
def docSameAssignee : Html :=
  [{ tag := "dd", itemprop := some ("inventor"), text := "John" },
   { tag := "span", itemprop := some ("assigneeSearch"), text := "John" }]

/-- A document with an inventor element only. -/
def docInventorOnly : Html :=
  [{ tag := "dd", itemprop := some ("inventor"), text := "John" }]

/-- A document with no priorityDate element but a priorArtDate time element. -/
def docPriorArt : Html :=
  [{ tag := "time", itemprop := some ("priorArtDate"), text := "May 5, 2020",
     datetime := some ("2020-05-05") }]

/-! ## Basic lemmas -/

theorem pystrip_empty : pystrip "" = "" := rfl

/-- Claim C1 (amended): the source resolves `exp_date` from the expiration
time element's rendered text alone — the stripped text when the element is
present with non-blank text, the sentinel `"DATE MISSING"` otherwise; none of
the claimed event-list fallback tiers is performed, and the machine-readable
datetime attribute is not consulted. -/
theorem C1_exp_date_amended (doc : Html) : (parse_core doc).exp_date = expDateAmendedSpec doc := by
  have hfield : (parse_core doc).exp_date = pyOr (expDateOpt doc) "DATE MISSING" := rfl
  rw [hfield]
  unfold expDateOpt expDateAmendedSpec
  cases h : findTagProp doc ("time") ("expiration") with
  | none => simp [pyOr]
  | some n =>
    by_cases ht : n.text = ""
    · simp [ht, pyOr, pystrip_empty]
    · simp [ht, pyOr]

/-- Claim C1 fails on the code: with an expiration time element the code
returns the rendered text, not the datetime attribute, and with only an
"adjusted expiration" event the code returns the sentinel because the
event-list tiers do not exist in the source. -/
theorem C1_exp_date_counterexample :
    (parse_core docExpAttr).exp_date ≠ expDateClaimed docExpAttr ∧
    (parse_core docExpEvent).exp_date ≠ expDateClaimed docExpEvent := by decide

/-- Claim C5 (amended): the source resolves `priority_date` from the
`priorityDate` element's stripped text alone — sentinel otherwise; the
`priorArtDate` datetime fallback is not performed. -/
theorem C5_priority_date_amended (doc : Html) :
    (parse_core doc).priority_date = priorityDateAmendedSpec doc := by
  have hfield : (parse_core doc).priority_date = pyOr (priorityOpt doc) "DATE MISSING" := rfl
  rw [hfield]
  unfold priorityOpt priorityDateAmendedSpec
  cases h : findProp doc ("priorityDate") with
  | none => simp [pyOr]
  | some n =>
    by_cases ht : n.text = ""
    · simp [ht, pyOr, pystrip_empty]
    · simp [ht, pyOr]

/-- Claim C5 fails on the code: a document with only a `priorArtDate` time
element yields the sentinel, not the element's datetime attribute. -/
theorem C5_priority_date_counterexample :
    (parse_core docPriorArt).priority_date ≠ priorityDateClaimed docPriorArt := by decide

/-- Claim C4 (amended): the inventor field carries an "Inventor: " prefix:
it is "Inventor: " followed by the trimmed text of the `dd` inventor element
when that is present and non-blank, and the literal "Inventor: None"
otherwise. -/
theorem C4_inventor_amended (doc : Html) : (parse_core doc).inventor = inventorAmendedSpec doc := by
  have hfield : (parse_core doc).inventor =
      (if truthy (inventorOpt doc) then "Inventor: " ++ (inventorOpt doc).getD ("")
       else "Inventor: None") := rfl
  rw [hfield]
  unfold inventorOpt inventorAmendedSpec
  cases h : findTagProp doc ("dd") ("inventor") with
  | none => simp [truthy]
  | some n =>
    by_cases ht : n.text = ""
    · simp [ht, truthy, pystrip_empty]
    · by_cases hs : pystrip n.text = ""
      · simp [ht, hs, truthy]
      · simp [ht, hs, truthy]

/-- Claim C4 fails on the code: the stored field is "Inventor: John", not the
trimmed text "John" that the claim asserts. -/
theorem C4_inventor_counterexample :
    (parse_core docInventorOnly).inventor ≠ inventorClaimed docInventorOnly := by decide

/-- Claim C2 (amended): the status composition is as claimed, except that a
status element whose text is empty or all whitespace also yields the fixed
literal "No status or exp date" (the claim reserves that literal for an
absent element and would return the empty trimmed text unchanged). -/
theorem C2_status_amended (doc : Html) : (parse_core doc).status = statusAmendedSpec doc := by
  have hfield : (parse_core doc).status = statusStr doc := rfl
  rw [hfield]
  unfold statusStr statusValOpt statusAmendedSpec
  cases h : findTagProp doc ("span") ("status") with
  | none => simp
  | some n =>
    by_cases ht : n.text = ""
    · simp [ht, pystrip_empty]
    · by_cases hsub : isSub ("Expired").data (pystrip n.text).data = true
      · by_cases hs : pystrip n.text = ""
        · rw [hs] at hsub
          exact absurd hsub (by decide)
        · have h1 : ("Expired" : String) ≠ "" := by decide
          have h2 : ¬(("Expired" : String) = "Active" ∧ truthy (expDateOpt doc) = true) := by
            intro hcon
            exact absurd hcon.1 (by decide)
          simp [ht, hsub, hs, h1, h2]
      · by_cases hs : pystrip n.text = ""
        · have hfalse : isSub ("Expired").data ([] : List Char) = false := by decide
          simp [ht, hsub, hs, hfalse]
        · by_cases hact : pystrip n.text = "Active" ∧ truthy (expDateOpt doc) = true
          · have hA1 : isSub ("Expired").data (("Active" : String)).data = false := by decide
            have hA2 : ("Active" : String) ≠ "" := by decide
            have hA3 : ("Active" : String) ++ " (Exp. " = "Active (Exp. " := rfl
            simp [ht, hsub, hs, hact, hA1, hA2, hA3]
          · simp [ht, hsub, hs, hact]

/-- Claim C2 fails on the code: a status element containing only whitespace
makes the code return "No status or exp date", while the claimed composition
returns the trimmed text, which is empty. -/
theorem C2_status_counterexample :
    (parse_core docBlankStatus).status ≠ statusClaimed docBlankStatus := by decide

/-- Claim C6 (confirmed): `patent_no` and `title` come from splitting the
document title text on " - " or a newline — first and second trimmed parts
when at least two parts result, empty strings otherwise (including a missing
title element). -/
theorem C6_title_split (doc : Html) :
    (parse_core doc).patent_no = (titleClaimed doc).1 ∧
    (parse_core doc).title = (titleClaimed doc).2 := by
  have h1 : (parse_core doc).patent_no = pyOr ((titleParts doc).map (fun pr => pr.1)) "" := rfl
  have h2 : (parse_core doc).title = pyOr ((titleParts doc).map (fun pr => pr.2)) "" := rfl
  rw [h1, h2]
  unfold titleParts titleClaimed
  cases h : findTag doc ("title") with
  | none => simp [pyOr]
  | some tt =>
    by_cases ht : tt.text = ""
    · have hd : tt.text.data = [] := by rw [ht]
      have hsp : titleSplit ([] : List Char) = [[]] := by decide
      simp [ht, hd, hsp, pyOr]
    · cases hsp : titleSplit tt.text.data with
      | nil => simp [ht, hsp, pyOr]
      | cons p0 tl =>
        cases tl with
        | nil => simp [ht, hsp, pyOr]
        | cons p1 tl2 =>
          have hself : ∀ s : String, pyOr (some s) "" = s := by
            intro s
            unfold pyOr
            split <;> simp_all
          simp [ht, hsp, hself]

/-- The assignee field always begins with the letter of its prefix, so it can
never coincide with an inventor field. -/
theorem assignee_inventor_distinct_heads (x y : String) :
    "Assignee: " ++ x ≠ "Inventor: " ++ y := by
  intro hcon
  have h1 : ("Assignee: " ++ x).data.head? = some ('A') := rfl
  rw [hcon] at h1
  have h2 : ("Inventor: " ++ y).data.head? = some ('I') := rfl
  rw [h2] at h1
  exact absurd h1 (by decide)

/-- The inventor value claimed by the specification, re-expressed through the
source's `inventor` local. -/
theorem inventorClaimed_via_opt (doc : Html) :
    inventorClaimed doc =
      (match inventorOpt doc with
       | some s => if s = "" then "None" else s
       | none => "None") := by
  unfold inventorClaimed inventorOpt
  cases hfi : findTagProp doc ("dd") ("inventor") with
  | none => simp
  | some m =>
    by_cases hmt : m.text = ""
    · simp [hmt, pystrip_empty]
    · simp [hmt]

/-- Claim C3 (amended): when the trimmed assignee text equals the resolved
inventor value the assignee field is the prefixed sentinel "Assignee: None"
(not the bare "None" the claim asserts), and the assignee field never equals
the inventor field — the two carry distinct fixed prefixes. -/
theorem C3_assignee_dedup_amended (doc : Html) :
    (∀ n, findTagProp doc ("span") ("assigneeSearch") = some n →
        pystrip n.text = inventorClaimed doc →
        (parse_core doc).assignee = "Assignee: None") ∧
    (parse_core doc).assignee ≠ (parse_core doc).inventor := by
  have hAN : ("Assignee: " ++ "None" : String) = "Assignee: None" := rfl
  constructor
  · intro n hf he
    have hfield : (parse_core doc).assignee =
        (if truthy (assigneeOpt doc) then "Assignee: " ++ (assigneeOpt doc).getD ("")
         else "Assignee: None") := rfl
    rw [hfield]
    have key : assigneeOpt doc = none ∨ assigneeOpt doc = some ("None") := by
      rw [inventorClaimed_via_opt doc] at he
      unfold assigneeOpt
      rw [hf]
      by_cases ht : n.text = ""
      · left; simp [ht]
      · cases hi : inventorOpt doc with
        | none =>
          simp only [hi] at he
          right; simp [ht, hi, he]
        | some inv =>
          simp only [hi] at he
          by_cases hinv : inv = ""
          · simp only [hinv, if_pos] at he
            right; simp [ht, hi, hinv, he]
          · rw [if_neg hinv] at he
            left; simp [ht, hi, hinv, he]
    rcases key with hk | hk
    · simp [hk, truthy]
    · simp [hk, truthy, hAN]
  · have ha : ∃ x, (parse_core doc).assignee = "Assignee: " ++ x := by
      by_cases h : truthy (assigneeOpt doc) = true
      · exact ⟨(assigneeOpt doc).getD (""), by simp [parse_core, h]⟩
      · exact ⟨"None", by simp [parse_core, h, hAN]⟩
    have hb : ∃ y, (parse_core doc).inventor = "Inventor: " ++ y := by
      have hIN : ("Inventor: " ++ "None" : String) = "Inventor: None" := rfl
      by_cases h : truthy (inventorOpt doc) = true
      · exact ⟨(inventorOpt doc).getD (""), by simp [parse_core, h]⟩
      · exact ⟨"None", by simp [parse_core, h, hIN]⟩
    obtain ⟨x, hx⟩ := ha
    obtain ⟨y, hy⟩ := hb
    rw [hx, hy]
    exact assignee_inventor_distinct_heads x y

/-- Claim C3 fails on the code in its sentinel: with identical inventor and
assignee texts the stored assignee field is "Assignee: None", not the bare
sentinel "None" the claim asserts. -/
theorem C3_assignee_counterexample :
    pystrip (("John" : String)) = inventorClaimed docSameAssignee ∧
    (parse_core docSameAssignee).assignee ≠ "None" := by decide

/-- Lookup skips a row entry whose key differs. -/
theorem rowGet_skip (k x v : String) (row : List (String × String))
    (h : (x == k) = false) : rowGet ((x, v) :: row) k = rowGet row k := by
  simp [rowGet, List.find?, h]

/-- Looking up a selected field among the empty field cells of an error row. -/
theorem find_map_const (sel : List String) (f : String) (hf : f ∈ sel) :
    (sel.map (fun g => (g, ("" : String)))).find? (fun e => e.1 == f) = some (f, "") := by
  induction sel with
  | nil => cases hf
  | cons a tl ih =>
    by_cases h : a = f
    · subst h
      rw [List.map_cons, List.find?_cons_of_pos _ (by simp)]
    · rcases List.mem_cons.mp hf with h1 | h1
      · exact absurd h1.symm h
      · rw [List.map_cons, List.find?_cons_of_neg _ (by simp [h])]
        exact ih h1

/-- Claim C7 (confirmed): a non-200 fetch produces a row whose error field is
"HTTP " followed by the status code and whose selected data fields are all
empty, the loop still emits one row for every identifier (processing
continues), and the run function is total (the overall run completes). -/
theorem C7_http_error_rows
    (selected : List String) (includeUrl : Bool) (pats : List String)
    (oracle : String → FetchOutcome) (i : Nat) (pat : String) (code : Nat) (doc : Html)
    (hsel : ∀ f ∈ selected, f ∈ DEFAULT_FIELDS)
    (hi : pats.get? i = some pat)
    (ho : oracle pat = FetchOutcome.response code doc)
    (hc : code ≠ 200) :
    (runAll selected includeUrl pats oracle).length = pats.length ∧
    (runAll selected includeUrl pats oracle).get? i =
      some (processOne selected includeUrl pat (FetchOutcome.response code doc)) ∧
    rowGet (processOne selected includeUrl pat (FetchOutcome.response code doc)) ("error") =
      some ("HTTP " ++ toString code) ∧
    (∀ f ∈ selected,
      rowGet (processOne selected includeUrl pat (FetchOutcome.response code doc)) f =
        some "") := by
  have hdata : fetch_one pat (FetchOutcome.response code doc) =
      Except.ok ⟨pat, url_from_patno pat, "HTTP " ++ toString code, none⟩ := by
    simp [fetch_one, hc]
  refine ⟨by simp [runAll], ?_, ?_, ?_⟩
  · have hmap : (runAll selected includeUrl pats oracle).get? i =
        (pats.get? i).map (fun p => processOne selected includeUrl p (oracle p)) := by
      simp [runAll, List.get?_map]
    rw [hmap, hi]
    simp [ho]
  · have e1 : (("pat_input" : String) == "error") = false := by decide
    have e2 : (("url" : String) == "error") = false := by decide
    have e3 : (("error" : String) == "error") = true := by decide
    cases includeUrl <;> simp [processOne, hdata, rowGet, List.find?, e1, e2, e3]
  · intro f hf
    have hmem : f = "patent_no" ∨ f = "title" ∨ f = "inventor" ∨ f = "assignee" ∨
        f = "status" ∨ f = "priority_date" ∨ f = "exp_date" := by
      simpa [DEFAULT_FIELDS] using hsel f hf
    have h1 : (("pat_input" : String) == f) = false := by
      rcases hmem with rfl | rfl | rfl | rfl | rfl | rfl | rfl <;> decide
    have h2 : (("url" : String) == f) = false := by
      rcases hmem with rfl | rfl | rfl | rfl | rfl | rfl | rfl <;> decide
    have h3 : (("error" : String) == f) = false := by
      rcases hmem with rfl | rfl | rfl | rfl | rfl | rfl | rfl <;> decide
    have hrow := find_map_const selected f hf
    cases includeUrl with
    | false =>
      simp only [processOne, hdata, Bool.false_eq_true, if_false, if_true]
      rw [rowGet_skip f _ _ _ h1, rowGet_skip f _ _ _ h3]
      simp [rowGet, hrow]
    | true =>
      simp only [processOne, hdata, Bool.false_eq_true, if_false, if_true]
      rw [rowGet_skip f _ _ _ h1, rowGet_skip f _ _ _ h2, rowGet_skip f _ _ _ h3]
      simp [rowGet, hrow]

/-- A demonstration network oracle: the first identifier gets a 404, the
second a 200 with an empty body. -/
def demoOracle : String → FetchOutcome := fun p =>
  if p = "US0000000" then FetchOutcome.response 404 [] else FetchOutcome.response 200 []

/-- Witness for C7 at a concrete run of two identifiers. -/
theorem C7_http_error_rows_witness :
    (runAll DEFAULT_FIELDS false ["US0000000", "US123"] demoOracle).length =
      (["US0000000", "US123"] : List String).length ∧
    (runAll DEFAULT_FIELDS false ["US0000000", "US123"] demoOracle).get? 0 =
      some (processOne DEFAULT_FIELDS false ("US0000000") (FetchOutcome.response 404 [])) ∧
    rowGet (processOne DEFAULT_FIELDS false ("US0000000") (FetchOutcome.response 404 []))
        ("error") = some ("HTTP " ++ toString 404) ∧
    (∀ f ∈ DEFAULT_FIELDS,
      rowGet (processOne DEFAULT_FIELDS false ("US0000000") (FetchOutcome.response 404 [])) f =
        some "") :=
  C7_http_error_rows DEFAULT_FIELDS false ["US0000000", "US123"] demoOracle 0 ("US0000000")
    404 [] (fun f hf => hf) rfl (by decide) (by decide)

/-- Claim C8 (amended): a non-200 status is indeed returned without raising,
as an error row carrying "HTTP " and the code; but a transport-level error is
NOT returned as a code-0 `FetchError` — `requests.get` raises, the exception
propagates out of `get_html`/`fetch_one`, and the `main` loop catches it and
records the exception's message string as the row's error field. -/
theorem C8_fetch_amended (selected : List String) (includeUrl : Bool) (pat : String)
    (code : Nat) (doc : Html) (msg : String) (hc : code ≠ 200) :
    fetch_one pat (FetchOutcome.response code doc) =
      Except.ok ⟨pat, url_from_patno pat, "HTTP " ++ toString code, none⟩ ∧
    fetch_one pat (FetchOutcome.transportError msg) = Except.error msg ∧
    rowGet (processOne selected includeUrl pat (FetchOutcome.transportError msg)) ("error") =
      some msg := by
  refine ⟨by simp [fetch_one, hc], rfl, ?_⟩
  have e1 : (("pat_input" : String) == "error") = false := by decide
  have e2 : (("url" : String) == "error") = false := by decide
  have e3 : (("error" : String) == "error") = true := by decide
  cases includeUrl <;> simp [processOne, fetch_one, rowGet, List.find?, e1, e2, e3]

/-- Witness for C8 at a concrete identifier, status and message. -/
theorem C8_fetch_amended_witness :
    fetch_one ("US0000000") (FetchOutcome.response 404 []) =
      Except.ok ⟨"US0000000", url_from_patno ("US0000000"), "HTTP " ++ toString 404, none⟩ ∧
    fetch_one ("US0000000") (FetchOutcome.transportError ("connection reset")) =
      Except.error ("connection reset") ∧
    rowGet (processOne DEFAULT_FIELDS true ("US0000000")
        (FetchOutcome.transportError ("connection reset"))) ("error") =
      some ("connection reset") :=
  C8_fetch_amended DEFAULT_FIELDS true ("US0000000") 404 [] ("connection reset") (by decide)

/-- Claim C8 fails on the code: a transport error makes the fetch operation
propagate the exception to its caller — it does not return a `FetchError`
value at all (so in particular none carrying code 0). -/
theorem C8_fetch_counterexample :
    (fetch_one ("US0000000") (FetchOutcome.transportError ("connection reset"))).isOk =
      false := by decide

/-- Every token produced by the delimiter-run splitter is free of delimiter
characters. -/
theorem splitRunsAux_no_sep :
    ∀ (s : List Char) (b : Bool), ∀ t ∈ splitRunsAux b s, ∀ c ∈ t, isSepChar c = false := by
  intro s
  induction s with
  | nil =>
    intro b t ht c hc
    simp [splitRunsAux] at ht
    subst ht
    cases hc
  | cons a rest ih =>
    intro b t ht c hc
    by_cases ha : isSepChar a = true
    · cases b with
      | false =>
        simp [splitRunsAux, ha] at ht
        rcases ht with ht | ht
        · subst ht; cases hc
        · exact ih true t ht c hc
      | true =>
        simp [splitRunsAux, ha] at ht
        exact ih true t ht c hc
    · have hb : isSepChar a = false := by
        cases hh : isSepChar a
        · rfl
        · exact absurd hh ha
      rw [show splitRunsAux b (a :: rest) = consHead a (splitRunsAux false rest) by
        simp [splitRunsAux, hb]] at ht
      cases hrec : splitRunsAux false rest with
      | nil =>
        rw [hrec] at ht
        simp [consHead] at ht
        subst ht
        rcases List.mem_singleton.mp hc with rfl
        exact hb
      | cons t0 ts =>
        rw [hrec] at ht
        simp only [consHead] at ht
        rcases List.mem_cons.mp ht with h1 | h1
        · subst h1
          rcases List.mem_cons.mp hc with rfl | h2
          · exact hb
          · exact ih false t0 (by rw [hrec]; exact List.mem_cons_self t0 ts) c h2
        · exact ih false t (by rw [hrec]; exact List.mem_cons_of_mem t0 h1) c hc

/-- Lemma: `dropWhile` is the identity when no element satisfies the predicate. -/
theorem dropWhile_of_all_neg {p : Char → Bool} :
    ∀ l : List Char, (∀ c ∈ l, p c = false) → l.dropWhile p = l := by
  intro l h
  cases l with
  | nil => rfl
  | cons a tl =>
    have := h a (List.mem_cons_self a tl)
    simp [List.dropWhile, this]

/-- Stripping is the identity on whitespace-free character lists. -/
theorem stripData_no_ws (t : List Char) (h : ∀ c ∈ t, pyWhitespace c = false) :
    stripData t = t := by
  unfold stripData
  rw [dropWhile_of_all_neg t h]
  rw [dropWhile_of_all_neg t.reverse (by intro c hc; exact h c (List.mem_reverse.mp hc))]
  exact List.reverse_reverse t

/-- On delimiter-free tokens the source's one-pass keep/drop step agrees with
the claimed filter pipeline. -/
theorem pats_filter_eq (toks : List (List Char))
    (h : ∀ t ∈ toks, ∀ c ∈ t, isSepChar c = false) :
    toks.filterMap (fun t =>
        if stripData t = [] then none
        else if strLower ⟨stripData t⟩ ∈ stopWords then none
        else some (⟨stripData t⟩ : String)) =
      ((toks.filter (fun t => !decide (t = []))).filter
          (fun t => !decide (strLower ⟨t⟩ ∈ stopWords))).map (fun t => (⟨t⟩ : String)) := by
  induction toks with
  | nil => rfl
  | cons a tl ih =>
    have hstrip : stripData a = a := stripData_no_ws a (by
      intro c hc
      have hsep := h a (List.mem_cons_self a tl) c hc
      unfold isSepChar at hsep
      exact (Bool.or_eq_false_iff.mp hsep).1)
    have htl : ∀ t ∈ tl, ∀ c ∈ t, isSepChar c = false := fun t ht =>
      h t (List.mem_cons_of_mem a ht)
    simp only [List.filterMap_cons, List.filter_cons, hstrip]
    by_cases h0 : a = []
    · simp [h0, ih htl]
    · by_cases hsw : strLower ⟨a⟩ ∈ stopWords
      · simp [h0, hsw, ih htl]
      · simp [h0, hsw, ih htl]

/-- Claim C9 (confirmed): the identifier-list parser splits on
whitespace/comma runs, discards empty artifacts and stoplisted header words,
and de-duplicates preserving first-seen order; on "US123, US123  US456" it
yields exactly ["US123", "US456"]. -/
theorem C9_identifier_list :
    (∀ raw : String, parse_patent_list raw = identifierListClaimed raw) ∧
    parse_patent_list ("US123, US123  US456") = ["US123", "US456"] := by
  constructor
  · intro raw
    simp only [parse_patent_list, identifierListClaimed, splitRuns]
    rw [pats_filter_eq _ (splitRunsAux_no_sep (stripData raw.data) false)]
  · decide

/-! ## Round-trip of the delimited export -/

/-- Prepend a whole prefix to the first token of a token list. -/
def consHeads (x : List Char) (ts : List (List Char)) : List (List Char) :=
  match ts with
  | [] => [x]
  | t :: tss => (x ++ t) :: tss

theorem consHead_eq (c : Char) (ts : List (List Char)) : consHead c ts = consHeads [c] ts := by
  cases ts <;> simp [consHead, consHeads]

theorem consHeads_consHeads (x y : List Char) (ts : List (List Char)) :
    consHeads x (consHeads y ts) = consHeads (x ++ y) ts := by
  cases ts <;> simp [consHeads, List.append_assoc]

theorem consHead_ne_nil (c : Char) (ts : List (List Char)) : consHead c ts ≠ [] := by
  cases ts <;> simp [consHead]

theorem splitTopAux_ne_nil (d : Char) (b : Bool) (s : List Char) : splitTopAux d b s ≠ [] := by
  induction s generalizing b with
  | nil => simp [splitTopAux]
  | cons c rest ih =>
    by_cases hc : c = '"'
    · simp only [splitTopAux, if_pos hc]
      exact consHead_ne_nil c _
    · by_cases hd : b = false ∧ c = d
      · simp only [splitTopAux, if_neg hc, if_pos hd]
        simp
      · simp only [splitTopAux, if_neg hc, if_neg hd]
        exact consHead_ne_nil c _

/-- Inside a quoted region, the doubled body runs through the splitter
untouched and the closing quote returns to the unquoted state. -/
theorem splitTopAux_quoted (d : Char) :
    ∀ v rest : List Char,
      splitTopAux d true (doubleQuotes v ++ '"' :: rest) =
        consHeads (doubleQuotes v ++ ['"']) (splitTopAux d false rest) := by
  intro v
  induction v with
  | nil =>
    intro rest
    simp [doubleQuotes, splitTopAux, consHead_eq]
  | cons c v' ih =>
    intro rest
    by_cases hc : c = '"'
    · subst hc
      simp only [doubleQuotes, eq_self_iff_true, if_true, List.cons_append]
      rw [show splitTopAux d true ('"' :: ('"' :: (doubleQuotes v' ++ '"' :: rest))) =
            consHead '"' (splitTopAux d false ('"' :: (doubleQuotes v' ++ '"' :: rest))) by
          simp [splitTopAux]]
      rw [show splitTopAux d false ('"' :: (doubleQuotes v' ++ '"' :: rest)) =
            consHead '"' (splitTopAux d true (doubleQuotes v' ++ '"' :: rest)) by
          simp [splitTopAux]]
      rw [ih rest, consHead_eq, consHead_eq, consHeads_consHeads, consHeads_consHeads]
      simp
    · simp only [doubleQuotes, if_neg hc, List.cons_append]
      rw [show splitTopAux d true (c :: (doubleQuotes v' ++ '"' :: rest)) =
            consHead c (splitTopAux d true (doubleQuotes v' ++ '"' :: rest)) by
          simp [splitTopAux, hc]]
      rw [ih rest, consHead_eq, consHeads_consHeads]
      simp

/-- A cell free of quotes and of the delimiter runs through the splitter
untouched. -/
theorem splitTopAux_plain (d : Char) :
    ∀ v rest : List Char, (∀ c ∈ v, c ≠ '"' ∧ c ≠ d) →
      splitTopAux d false (v ++ rest) = consHeads v (splitTopAux d false rest) := by
  intro v
  induction v with
  | nil =>
    intro rest _
    cases hk : splitTopAux d false rest with
    | nil => exact absurd hk (splitTopAux_ne_nil d false rest)
    | cons t ts => simp [hk, consHeads]
  | cons c v' ih =>
    intro rest h
    have hc := h c (List.mem_cons_self c v')
    simp only [List.cons_append]
    rw [show splitTopAux d false (c :: (v' ++ rest)) =
          consHead c (splitTopAux d false (v' ++ rest)) by
        simp [splitTopAux, hc.1, hc.2]]
    rw [ih rest (fun x hx => h x (List.mem_cons_of_mem c hx)), consHead_eq, consHeads_consHeads]
    simp

/-- An escaped cell runs through the splitter untouched for both the record
delimiter and the cell delimiter. -/
theorem splitTopAux_escapeCell (d sep : Char) (hd : d = sep ∨ d = '\n') (hq : d ≠ '"')
    (v rest : List Char) :
    splitTopAux d false (escapeCell sep v ++ rest) =
      consHeads (escapeCell sep v) (splitTopAux d false rest) := by
  by_cases hesc : v.any (fun c => c == sep || c == '\n' || c == '"') = true
  · simp only [escapeCell, if_pos hesc]
    simp only [List.cons_append, List.append_assoc, List.singleton_append, List.nil_append]
    rw [show splitTopAux d false ('"' :: (doubleQuotes v ++ '"' :: rest)) =
          consHead '"' (splitTopAux d true (doubleQuotes v ++ '"' :: rest)) by
        simp [splitTopAux]]
    rw [splitTopAux_quoted d v rest, consHead_eq, consHeads_consHeads]
    simp
  · simp only [escapeCell, if_neg hesc]
    apply splitTopAux_plain
    intro c hc
    have hnot : ¬(c = sep ∨ c = '\n' ∨ c = '"') := by
      intro hcon
      apply hesc
      refine List.any_eq_true.mpr ⟨c, hc, ?_⟩
      rcases hcon with h1 | h1 | h1 <;> simp [h1]
    constructor
    · intro hcon
      exact hnot (Or.inr (Or.inr hcon))
    · intro hcon
      rcases hd with rfl | rfl
      · exact hnot (Or.inl hcon)
      · exact hnot (Or.inr (Or.inl hcon))

/-- Undoing the quote doubling recovers the cell body. -/
theorem undoubleInner_doubleQuotes (v : List Char) :
    undoubleInner (doubleQuotes v ++ ['"']) = v := by
  induction v with
  | nil => rfl
  | cons c v' ih =>
    by_cases hc : c = '"'
    · subst hc
      simp only [doubleQuotes, eq_self_iff_true, if_true, List.cons_append]
      rw [undoubleInner.eq_def]
      simp [ih]
    · simp only [doubleQuotes, if_neg hc, List.cons_append]
      rw [undoubleInner.eq_def]
      simp [hc, ih]

/-- Unquoting undoes the export's escaping, cell by cell. -/
theorem unescape_escapeCell (sep : Char) (v : List Char) :
    unescapeCell (escapeCell sep v) = v := by
  by_cases hesc : v.any (fun c => c == sep || c == '\n' || c == '"') = true
  · simp only [escapeCell, if_pos hesc]
    simp [unescapeCell, undoubleInner_doubleQuotes]
  · simp only [escapeCell, if_neg hesc]
    cases v with
    | nil => rfl
    | cons c r =>
      have hcq : ¬c = '"' := by
        intro hcon
        apply hesc
        exact List.any_eq_true.mpr ⟨c, List.mem_cons_self c r, by simp [hcon]⟩
      simp [unescapeCell, hcq]

/-- Splitting one exported line at the separator and unquoting recovers the
row's cells. -/
theorem splitRow_cells (sep : Char) (hq : sep ≠ '"') :
    ∀ r : List (List Char), r ≠ [] →
      (splitTop sep (serializeRow sep r)).map unescapeCell = r := by
  intro r
  induction r with
  | nil => intro h; exact absurd rfl h
  | cons c cs ih =>
    intro _
    cases cs with
    | nil =>
      have h1 : serializeRow sep [c] = escapeCell sep c := by
        simp [serializeRow, interChar]
      rw [h1]
      show (splitTopAux sep false (escapeCell sep c)).map unescapeCell = [c]
      rw [← List.append_nil (escapeCell sep c),
        splitTopAux_escapeCell sep sep (Or.inl rfl) hq c []]
      simp [splitTopAux, consHeads, unescape_escapeCell]
    | cons c2 cs2 =>
      have h1 : serializeRow sep (c :: c2 :: cs2) =
          escapeCell sep c ++ sep :: serializeRow sep (c2 :: cs2) := by
        simp [serializeRow, interChar]
      rw [h1]
      show (splitTopAux sep false
          (escapeCell sep c ++ sep :: serializeRow sep (c2 :: cs2))).map unescapeCell =
        c :: c2 :: cs2
      rw [splitTopAux_escapeCell sep sep (Or.inl rfl) hq c (sep :: serializeRow sep (c2 :: cs2))]
      rw [show splitTopAux sep false (sep :: serializeRow sep (c2 :: cs2)) =
            [] :: splitTopAux sep false (serializeRow sep (c2 :: cs2)) by
          simp [splitTopAux, hq]]
      rw [show consHeads (escapeCell sep c)
            ([] :: splitTopAux sep false (serializeRow sep (c2 :: cs2))) =
            escapeCell sep c :: splitTopAux sep false (serializeRow sep (c2 :: cs2)) by
          simp [consHeads]]
      rw [List.map_cons, unescape_escapeCell]
      rw [show (splitTopAux sep false (serializeRow sep (c2 :: cs2))).map unescapeCell =
            c2 :: cs2 from ih (by simp)]

/-- A serialized line runs through the record splitter untouched. -/
theorem splitLines_row (sep : Char) (hq : sep ≠ '"') (hn : sep ≠ '\n') :
    ∀ (r : List (List Char)) (rest : List Char), r ≠ [] →
      splitTopAux '\n' false (serializeRow sep r ++ rest) =
        consHeads (serializeRow sep r) (splitTopAux '\n' false rest) := by
  intro r
  induction r with
  | nil => intro rest h; exact absurd rfl h
  | cons c cs ih =>
    intro rest _
    cases cs with
    | nil =>
      have h1 : serializeRow sep [c] = escapeCell sep c := by
        simp [serializeRow, interChar]
      rw [h1]
      exact splitTopAux_escapeCell '\n' sep (Or.inr rfl) (by decide) c rest
    | cons c2 cs2 =>
      have h1 : serializeRow sep (c :: c2 :: cs2) =
          escapeCell sep c ++ sep :: serializeRow sep (c2 :: cs2) := by
        simp [serializeRow, interChar]
      rw [h1]
      rw [show (escapeCell sep c ++ sep :: serializeRow sep (c2 :: cs2)) ++ rest =
            escapeCell sep c ++ sep :: (serializeRow sep (c2 :: cs2) ++ rest) by
          simp [List.append_assoc]]
      rw [splitTopAux_escapeCell '\n' sep (Or.inr rfl) (by decide) c
        (sep :: (serializeRow sep (c2 :: cs2) ++ rest))]
      rw [show splitTopAux '\n' false (sep :: (serializeRow sep (c2 :: cs2) ++ rest)) =
            consHead sep (splitTopAux '\n' false (serializeRow sep (c2 :: cs2) ++ rest)) by
          simp [splitTopAux, hq, hn]]
      rw [ih rest (by simp)]
      rw [consHead_eq, consHeads_consHeads, consHeads_consHeads]
      simp [List.append_assoc]

/-- Splitting the whole export at unquoted newlines recovers the serialized
lines. -/
theorem splitLines_all (sep : Char) (hq : sep ≠ '"') (hn : sep ≠ '\n') :
    ∀ rows : List (List (List Char)), rows ≠ [] → (∀ r ∈ rows, r ≠ []) →
      splitTop '\n' (interChar '\n' (rows.map (serializeRow sep))) =
        rows.map (serializeRow sep) := by
  intro rows
  induction rows with
  | nil => intro h _; exact absurd rfl h
  | cons r rows' ih =>
    intro _ hall
    cases rows' with
    | nil =>
      have h1 : interChar '\n' ([r].map (serializeRow sep)) = serializeRow sep r := by
        simp [interChar]
      rw [h1]
      show splitTopAux '\n' false (serializeRow sep r) = [r].map (serializeRow sep)
      rw [← List.append_nil (serializeRow sep r),
        splitLines_row sep hq hn r [] (hall r (List.mem_cons_self r []))]
      simp [splitTopAux, consHeads]
    | cons r2 rows2 =>
      have h1 : interChar '\n' ((r :: r2 :: rows2).map (serializeRow sep)) =
          serializeRow sep r ++ '\n' :: interChar '\n' ((r2 :: rows2).map (serializeRow sep)) := by
        simp [interChar]
      rw [h1]
      show splitTopAux '\n' false
          (serializeRow sep r ++ '\n' :: interChar '\n' ((r2 :: rows2).map (serializeRow sep))) =
        (r :: r2 :: rows2).map (serializeRow sep)
      rw [splitLines_row sep hq hn r
        ('\n' :: interChar '\n' ((r2 :: rows2).map (serializeRow sep)))
        (hall r (List.mem_cons_self r (r2 :: rows2)))]
      rw [show splitTopAux '\n' false
            ('\n' :: interChar '\n' ((r2 :: rows2).map (serializeRow sep))) =
            [] :: splitTopAux '\n' false (interChar '\n' ((r2 :: rows2).map (serializeRow sep))) by
          simp [splitTopAux]]
      rw [show splitTopAux '\n' false (interChar '\n' ((r2 :: rows2).map (serializeRow sep))) =
            (r2 :: rows2).map (serializeRow sep) from
          ih (by simp) (fun x hx => hall x (List.mem_cons_of_mem r hx))]
      simp [consHeads]

/-- Header cells that contain no separator, newline or quote are exported
verbatim, so the header line is the serialization of the header row. -/
theorem interChar_headers (sep : Char) (headers : List (List Char))
    (hph : ∀ h ∈ headers, h.any (fun c => c == sep || c == '\n' || c == '"') = false) :
    interChar sep headers = serializeRow sep headers := by
  unfold serializeRow
  have hmap : headers.map (escapeCell sep) = headers := by
    have h1 : headers.map (escapeCell sep) = headers.map id := by
      apply List.map_congr_left
      intro a ha
      have := hph a ha
      simp [escapeCell, this]
    rw [h1, List.map_id]
  rw [hmap]

/-- Claim C10 (confirmed): exporting a header line plus escaped data rows and
re-parsing with standard delimited-text rules (split at unquoted newlines,
then at unquoted separators, then unquote) reconstructs every cell value
exactly, for both the comma and the tab separator. -/
theorem C10_export_roundtrip (sep : Char) (headers : List (List Char))
    (rows : List (List (List Char)))
    (hsep : sep = ',' ∨ sep = '\t')
    (hh : headers ≠ [])
    (hph : ∀ h ∈ headers, h.any (fun c => c == sep || c == '\n' || c == '"') = false)
    (hr : ∀ r ∈ rows, r ≠ []) :
    parseTable sep (exportText sep headers rows) = headers :: rows := by
  have hq : sep ≠ '"' := by rcases hsep with rfl | rfl <;> decide
  have hn : sep ≠ '\n' := by rcases hsep with rfl | rfl <;> decide
  unfold parseTable exportText
  rw [interChar_headers sep headers hph]
  rw [show serializeRow sep headers :: rows.map (serializeRow sep) =
        (headers :: rows).map (serializeRow sep) by simp]
  rw [splitLines_all sep hq hn (headers :: rows) (by simp) (by
    intro r hmem
    rcases List.mem_cons.mp hmem with rfl | h2
    · exact hh
    · exact hr r h2)]
  rw [List.map_map]
  have hfun : ∀ r ∈ headers :: rows,
      ((fun line => (splitTop sep line).map unescapeCell) ∘ serializeRow sep) r = id r := by
    intro r hmem
    show (splitTop sep (serializeRow sep r)).map unescapeCell = r
    apply splitRow_cells sep hq
    rcases List.mem_cons.mp hmem with rfl | h2
    · exact hh
    · exact hr r h2
  rw [List.map_congr_left hfun, List.map_id]

/-- Witness for C10 at a concrete comma-separated export whose cells contain
the separator, quotes and a newline. -/
theorem C10_export_roundtrip_witness :
    parseTable ',' (exportText ','
        [("pat_input").data, ("error").data]
        [[("US1").data, ("a,\"b\"\nc").data], [[], ("plain").data]]) =
      [("pat_input").data, ("error").data] ::
        [[("US1").data, ("a,\"b\"\nc").data], [[], ("plain").data]] :=
  C10_export_roundtrip ',' [("pat_input").data, ("error").data]
    [[("US1").data, ("a,\"b\"\nc").data], [[], ("plain").data]]
    (Or.inl rfl) (by decide) (by decide) (by decide)

/-- Witness for C3 at the document whose assignee text equals its inventor
text. -/
theorem C3_assignee_dedup_amended_witness :
    (parse_core docSameAssignee).assignee = "Assignee: None" ∧
    (parse_core docSameAssignee).assignee ≠ (parse_core docSameAssignee).inventor :=
  ⟨(C3_assignee_dedup_amended docSameAssignee).1
      { tag := "span", itemprop := some ("assigneeSearch"), text := "John" }
      (by decide) (by decide),
    (C3_assignee_dedup_amended docSameAssignee).2⟩
